import Mathlib

set_option maxHeartbeats 1000000

/-!
Verification development for the FATE repository slice consisting of
`federatedml/linear_model/caesar_model/hetero_lr/hetero_lr_base.py`
(`HeteroLRBase`) and `fate_flow/pipelined_model/pipelined_model.py`
(`PipelinedModel`).

The Python code is shallowly embedded: the training loop of
`HeteroLRBase.fit_binary` becomes a structurally recursive Lean function
producing the trace of protocol steps it executes, `review_models` and
`share_z` become pure functions over explicit share data and an explicit
message list, and the `PipelinedModel` persistence routines become pure
state transformers over a small file-system record together with a
miniature model of the protobuf wire format (the external library the
code calls into).
-/

namespace FATE

namespace CaesarLR

/-- Party roles (`consts.GUEST` / `consts.HOST` / `consts.ARBITER`).
`fit_binary` and `review_models` branch on `self.role == consts.GUEST`;
every other role takes the `else` branch. -/
inductive Role
  | guest
  | host
  | arbiter
deriving DecidableEq

/-- A transfer tag issued by the coordinator: either the batch suffix
tuple `(self.n_iter_, batch_idx)` built at line 148 of
`hetero_lr_base.py` and passed to `cal_prediction` / `compute_gradient`,
or a reconstruction tensor name such as `f"wb_{self.n_iter_}"` used by
`review_models` (modelled as the pair of its base string and the
interpolated iteration number). -/
inductive Tag
  | batchSuffix (it bat : Nat)
  | tname (base : String) (it : Nat)
deriving DecidableEq

/-- One observable step of the `fit_binary` / `review_models` control
flow.  `guardErr` is the `ValueError` raised by the
`all_review_in_guest` guard (lines 193-195); `unsupported` is the
`NotImplementedError` raised for an unknown review strategy (line 201);
`convergedStop` marks the `break` taken when `check_converge` reports
convergence (lines 172-174). -/
inductive Step
  | predict (it bat : Nat)
  | plainError (it bat : Nat)
  | gradient (it bat : Nat)
  | reconstructUni (t : Tag)
  | broadcastShare (t : Tag)
  | guardErr (it bat : Nat)
  | unsupported (it bat : Nat) (strategy : String)
  | convergedStop (it : Nat)
deriving DecidableEq

/-- Static configuration of one training run: the local role, the
`review_strategy` string from the model parameters, the dimension of the
`wb` tensor (the Guest-side weight shard, which is `w_remote` at the
Host and is what the guard at line 193 measures), the number of encoded
batches, `max_iter`, and the outcome of `check_converge` at the end of
each iteration (abstracted as an oracle indexed by the iteration
number). -/
structure Cfg where
  role : Role
  reviewStrategy : String
  wbDim : Nat
  nb : Nat
  maxIter : Nat
  conv : Nat → Bool

/-- Steps executed by one call of `review_models` (lines 177-204),
together with `false` when the call raises.  Branches mirror the source:
`"respectively"` (lines 178-184), `"all_review_in_guest"` with its
Host-side guard on `w_remote.shape[0] > 2` (lines 186-199), and the
`NotImplementedError` fallback (lines 200-201).  `bat` is the batch
index of the surrounding loop, recorded only to locate a raise. -/
def reviewSteps (cfg : Cfg) (it bat : Nat) : List Step × Bool :=
  if cfg.reviewStrategy = "respectively" then
    if cfg.role = Role.guest then
      ([Step.reconstructUni (Tag.tname "wb" it), Step.broadcastShare (Tag.tname "wa" it)], true)
    else
      ([Step.broadcastShare (Tag.tname "wb" it), Step.reconstructUni (Tag.tname "wa" it)], true)
  else if cfg.reviewStrategy = "all_review_in_guest" then
    if cfg.role = Role.guest then
      ([Step.reconstructUni (Tag.tname "wb" it), Step.reconstructUni (Tag.tname "wa" it)], true)
    else if cfg.wbDim > 2 then
      ([Step.guardErr it bat], false)
    else
      ([Step.broadcastShare (Tag.tname "wb" it), Step.broadcastShare (Tag.tname "wa" it)], true)
  else
    ([Step.unsupported it bat cfg.reviewStrategy], false)

/-- Steps of one pass of the `for batch_idx, batch_data in enumerate(...)`
body (lines 146-166): build `current_suffix`, call `cal_prediction`,
in the Guest branch compute the plaintext error and re-share it, call
`compute_gradient`, then `review_models`. -/
def batchSteps (cfg : Cfg) (it bat : Nat) : List Step × Bool :=
  let pre := Step.predict it bat ::
    (if cfg.role = Role.guest then [Step.plainError it bat] else []) ++ [Step.gradient it bat]
  let rs := reviewSteps cfg it bat
  (pre ++ rs.1, rs.2)

/-- Runs the first `n` batches (indices `0, …, n-1`) of iteration `it`
in order, stopping at the first batch whose review raises. -/
def runBatchesAux (cfg : Cfg) (it : Nat) : Nat → List Step × Bool
  | 0 => ([], true)
  | n + 1 =>
    let pre := runBatchesAux cfg it n
    if pre.2 then
      let s := batchSteps cfg it n
      (pre.1 ++ s.1, s.2)
    else (pre.1, false)

/-- All batches of iteration `it` (the inner `for` loop). -/
def runBatches (cfg : Cfg) (it : Nat) : List Step × Bool :=
  runBatchesAux cfg it cfg.nb

/-- The `while self.n_iter_ < self.max_iter` loop of `fit_binary`
(lines 144-175).  The loop is driven by the remaining iteration budget
`r`; a call with `r = maxIter - it` and current iteration `it`
reproduces the `while` condition, since `it < maxIter ↔ 0 < r` under
that invariant.  Each pass runs all batches, aborts if a batch raised,
otherwise consults `check_converge` and either breaks (`convergedStop`)
or increments `n_iter_`. -/
def runIters (cfg : Cfg) : Nat → Nat → List Step × Bool
  | 0, _ => ([], true)
  | r + 1, it =>
    let bs := runBatches cfg it
    if bs.2 then
      if cfg.conv it then (bs.1 ++ [Step.convergedStop it], true)
      else
        let rest := runIters cfg r (it + 1)
        (bs.1 ++ rest.1, rest.2)
    else (bs.1, false)

/-- Trace of one whole `fit_binary` training run, starting from
`self.n_iter_ = 0`. -/
def fitBinaryTrace (cfg : Cfg) : List Step :=
  (runIters cfg cfg.maxIter 0).1

/-- The tags a step causes the coordinator to issue: the suffix tuple is
created once per batch (line 148) and the review primitives each consume
one tensor name. -/
def tagsOfStep : Step → List Tag
  | Step.predict it bat => [Tag.batchSuffix it bat]
  | Step.reconstructUni t => [t]
  | Step.broadcastShare t => [t]
  | _ => []

/-- All tags issued during a run, in order. -/
def runTags (cfg : Cfg) : List Tag :=
  (fitBinaryTrace cfg).flatMap tagsOfStep

/-- The argument `review_models` and the run never abort: either the
strategy is `"respectively"`, or it is `"all_review_in_guest"` and the
Host-side guard `w_remote.shape[0] > 2` cannot fire. -/
abbrev NoAbort (cfg : Cfg) : Prop :=
  cfg.reviewStrategy = "respectively" ∨
    (cfg.reviewStrategy = "all_review_in_guest" ∧ (cfg.role = Role.guest ∨ cfg.wbDim ≤ 2))

/-- The `error` argument handed to `compute_gradient` (lines 151-162):
at the Guest it is the re-shared plaintext error
`y.value.join(self.labels, operator.sub)` wrapped by
`FixedPointTensor.from_value`; at every other role it is the unchanged
prediction `y`. -/
inductive GradArg
  | reshared (err : List Int)
  | shared (y : List Int)
deriving DecidableEq

/-- Value-level model of lines 151-162: `labels` is the Guest's local
label column, `yVal` the local value of the `cal_prediction` output
(the reconstructed prediction at the Guest, per the spec; the method is
abstract in this file). -/
def batchGradCall (role : Role) (labels yVal : List Int) : GradArg :=
  if role = Role.guest then
    GradArg.reshared (List.zipWith (fun yi li => yi - li) yVal labels)
  else
    GradArg.shared yVal

/-- A concrete single-iteration, two-batch, never-converging run used to
exercise the tag bookkeeping. -/
def cfgTwoBatches : Cfg :=
  { role := Role.guest, reviewStrategy := "respectively", wbDim := 1,
    nb := 2, maxIter := 1, conv := fun _ => false }

/-- A concrete run with an unknown review strategy. -/
def cfgUnknownStrategy : Cfg :=
  { role := Role.guest, reviewStrategy := "foo", wbDim := 1,
    nb := 1, maxIter := 3, conv := fun _ => false }

/-- A concrete well-behaved run for witnesses. -/
def cfgRespectively : Cfg :=
  { role := Role.host, reviewStrategy := "respectively", wbDim := 1,
    nb := 2, maxIter := 3, conv := fun it => it == 1 }

/-! ### Value-level model of `review_models` and `share_z`

A secret-shared weight tensor is the pair of the two parties' local
additive shares.  `reconstruct_unilateral` sums the caller's own share
with the share received over the channel and decodes; we keep the field
modulus `q` and the fixed-point decoder `dec` abstract parameters, since
`fixedpoint_numpy` is outside this file. -/

/-- Additive shares of one logical tensor: the Guest's local share and
the Host's local share. -/
structure Shared where
  gShare : List Int
  hShare : List Int
deriving DecidableEq

/-- The plaintext a party computes in `reconstruct_unilateral`: its own
share plus the received share, reduced modulo `q` and decoded. -/
def reconVal (q : Int) (dec : Int → Int) (own other : List Int) : List Int :=
  List.zipWith (fun a b => dec ((a + b) % q)) own other

/-- A broadcast message: the tensor name tag and the broadcast share. -/
abbrev Msg := Tag × List Int

/-- Receiving from a list of pending broadcasts: the first message whose
tag matches, `none` if the receiver would block forever. -/
def recvFrom : List Msg → Tag → Option (List Int)
  | [], _ => none
  | (t', v) :: ms, t => if t = t' then some v else recvFrom ms t

/-- Guest branch of the `"respectively"` review (lines 179-181): it
broadcasts its share of `wa` under the tag `wa_{n_iter_}`. -/
def guestRespectivelySends (it : Nat) (waG : List Int) : List Msg :=
  [(Tag.tname "wa" it, waG)]

/-- Host branch of the `"respectively"` review (line 183): it broadcasts
its share of `wb` under the tag `wb_{n_iter_}`. -/
def hostRespectivelySends (it : Nat) (wbH : List Int) : List Msg :=
  [(Tag.tname "wb" it, wbH)]

/-- Guest's `new_w` under `"respectively"` (line 180):
`w_self.reconstruct_unilateral(tensor_name=f"wb_{n_iter_}")` combines the
Guest's own `wb` share with the share received under that tag. -/
def guestRespectivelyNewW (q : Int) (dec : Int → Int) (it : Nat) (wbG : List Int)
    (recv : Tag → Option (List Int)) : Option (List Int) :=
  (recv (Tag.tname "wb" it)).map (reconVal q dec wbG)

/-- Host's `new_w` under `"respectively"` (line 184):
`w_self.reconstruct_unilateral(tensor_name=f"wa_{n_iter_}")`. -/
def hostRespectivelyNewW (q : Int) (dec : Int → Int) (it : Nat) (waH : List Int)
    (recv : Tag → Option (List Int)) : Option (List Int) :=
  (recv (Tag.tname "wa" it)).map (reconVal q dec waH)

/-- Two-party composition of the `"respectively"` review at iteration
`it`.  The Host's broadcast (line 183, non-blocking) feeds the Guest's
reconstruction (line 180); the Guest's broadcast (line 181) feeds the
Host's reconstruction (line 184).  Result: `(guest new_w, host new_w)`,
or `none` if a receive never matches. -/
def composeRespectively (q : Int) (dec : Int → Int) (it : Nat) (wb wa : Shared) :
    Option (List Int × List Int) :=
  let gw := guestRespectivelyNewW q dec it wb.gShare
    (recvFrom (hostRespectivelySends it wb.hShare))
  let hw := hostRespectivelyNewW q dec it wa.hShare
    (recvFrom (guestRespectivelySends it wa.gShare))
  match gw, hw with
  | some g, some h => some (g, h)
  | _, _ => none

/-- Everything the Guest's `"respectively"` branch touches: the local
shares of its two tensor objects and the broadcasts it receives. -/
def guestRespectivelyView (it : Nat) (wb wa : Shared) :
    List (List Int) × List Msg :=
  ([wb.gShare, wa.gShare], hostRespectivelySends it wb.hShare)

/-- Everything the Host's `"respectively"` branch touches. -/
def hostRespectivelyView (it : Nat) (wb wa : Shared) :
    List (List Int) × List Msg :=
  ([wa.hShare, wb.hShare], guestRespectivelySends it wa.gShare)

/-- Errors of the value-level review model: the guard `ValueError` of
lines 193-195, or a receive that can never be served. -/
inductive RErr
  | policyViolation
  | blocked
deriving DecidableEq

/-- `LinearModelWeights(l=…, fit_intercept=…)` as stored by
`review_models`. -/
structure LinearModelWeights where
  l : List Int
  fitIntercept : Bool
deriving DecidableEq

/-- Host branch of `"all_review_in_guest"` (lines 192-199): first the
guard `w_remote.shape[0] > 2` — `w_remote` at the Host is the `wb`
tensor, whose local share is `wbH` — raising `ValueError` before any
share crosses the channel; otherwise broadcast both shares and return
`np.zeros(w_self.shape)` (the `wa` dimension). -/
def hostAllReviewInGuest (it : Nat) (waH wbH : List Int) :
    Except RErr (List Msg × List Int) :=
  if wbH.length > 2 then Except.error RErr.policyViolation
  else
    Except.ok ([(Tag.tname "wb" it, wbH), (Tag.tname "wa" it, waH)],
               List.replicate waH.length 0)

/-- Guest branch of `"all_review_in_guest"` (lines 188-191): reconstruct
both shards; the Host shard becomes
`LinearModelWeights(l=hosted_weights, fit_intercept=False)`. -/
def guestAllReviewInGuest (q : Int) (dec : Int → Int) (it : Nat)
    (wbG waG : List Int) (recv : Tag → Option (List Int)) :
    Except RErr (List Int × LinearModelWeights) :=
  match recv (Tag.tname "wb" it), recv (Tag.tname "wa" it) with
  | some sb, some sa =>
      Except.ok (reconVal q dec wbG sb, ⟨reconVal q dec waG sa, false⟩)
  | _, _ => Except.error RErr.blocked

/-- Joint outcome of one `"all_review_in_guest"` review. -/
structure AllInGuestOutcome where
  guestNewW : List Int
  guestHosted : LinearModelWeights
  hostNewW : List Int
deriving DecidableEq

/-- Two-party composition of the `"all_review_in_guest"` review: the
Host runs first (its branch never receives); if its guard raises, the
Guest's receives are never served and the review yields no outcome. -/
def composeAllReviewInGuest (q : Int) (dec : Int → Int) (it : Nat) (wb wa : Shared) :
    Except RErr AllInGuestOutcome :=
  match hostAllReviewInGuest it wa.hShare wb.hShare with
  | Except.error e => Except.error e
  | Except.ok (sends, hw) =>
    match guestAllReviewInGuest q dec it wb.gShare wa.gShare (recvFrom sends) with
    | Except.error e => Except.error e
    | Except.ok (gw, hosted) => Except.ok ⟨gw, hosted, hw⟩

/-! ### `share_z` (lines 206-224) -/

/-- The suffix `(var_name,) + suffix` used by
`transfer_variable.encrypted_share_matrix` in `share_z`. -/
structure ZTag where
  var : String
  it : Nat
  bat : Nat
deriving DecidableEq

/-- The loop list of `share_z`: `for var_name in ["z"]` (the
`z_square` / `z_cube` entries are commented out in the source). -/
def shareZVars : List String := ["z"]

/-- Host side of `share_z`: encrypt each listed variable and send it to
the Guest under the tag `(var_name,) + suffix`. -/
def shareZHost (enc : List Int → List Int) (it bat : Nat)
    (kwargs : String → List Int) : List (ZTag × List Int) :=
  shareZVars.map (fun v => (⟨v, it, bat⟩, enc (kwargs v)))

/-- Guest side of `share_z`: receive each listed variable, collect the
wrapped tensors in `res`, and return `res[0], res[0], res[0]`. -/
def shareZGuest (recv : ZTag → List Int) (it bat : Nat) :
    List Int × List Int × List Int :=
  let res := shareZVars.map (fun v => recv ⟨v, it, bat⟩)
  (res.getD 0 [], res.getD 0 [], res.getD 0 [])

end CaesarLR

namespace Proto

/-!
Miniature model of the protobuf wire format used by
`PipelinedModel.save_component_model` / `parse_proto_object` through the
external protobuf library: varint-keyed fields with wire type 0
(varint) and 2 (length-delimited), proto3 semantics (fields holding
their default value are omitted on serialization; unknown field numbers
are skipped on parse; a wire type clashing with the declared type is a
`DecodeError`; the empty string parses to a default-initialized
message).
-/

/-- 7-bit little-endian varint encoder, fuel-driven so that it reduces
in the kernel (`f` bounds the recursion depth; any `f > n` is enough). -/
def varintEncodeGo : Nat → Nat → List Nat
  | 0, _ => []
  | f + 1, n => if n < 128 then [n] else (n % 128 + 128) :: varintEncodeGo f (n / 128)

/-- 7-bit little-endian varint encoding of `n`. -/
def varintEncode (n : Nat) : List Nat :=
  varintEncodeGo (n + 1) n

/-- Varint decoder: the decoded value and the remaining bytes. -/
def varintDecode : List Nat → Option (Nat × List Nat)
  | [] => none
  | b :: rest =>
    if b < 128 then some (b, rest)
    else
      match varintDecode rest with
      | some (m, r) => some ((b - 128) + 128 * m, r)
      | none => none

/-- A field value: a varint scalar or a length-delimited payload. -/
inductive FVal
  | vi (n : Nat)
  | ld (bs : List Nat)
deriving DecidableEq

/-- The wire type a value is encoded with. -/
def wtypeOf : FVal → Nat
  | FVal.vi _ => 0
  | FVal.ld _ => 2

/-- Proto3 default test: scalar `0`, empty payload. -/
def isDefaultF : FVal → Bool
  | FVal.vi n => n == 0
  | FVal.ld bs => bs.isEmpty

/-- Encoding of one field: key varint `fieldNum * 8 + wireType`, then
the payload. -/
def encodeField : Nat × FVal → List Nat
  | (fn, FVal.vi n) => varintEncode (fn * 8 + 0) ++ varintEncode n
  | (fn, FVal.ld bs) => varintEncode (fn * 8 + 2) ++ varintEncode bs.length ++ bs

/-- A message instance: its populated fields in order.  The default
instance of every class is `[]`. -/
abbrev Instance := List (Nat × FVal)

/-- A protobuf-generated class: the declared field numbers with their
wire types. -/
abbrev PClass := List (Nat × Nat)

/-- Concatenated encoding of a field list. -/
def serializeFields : Instance → List Nat
  | [] => []
  | f :: fs => encodeField f ++ serializeFields fs

/-- `SerializeToString`: proto3 omits fields holding default values, so
the all-default instance serializes to the empty byte string. -/
def serializeMsg (obj : Instance) : List Nat :=
  serializeFields (obj.filter (fun p => !isDefaultF p.2))

/-- `ParseFromString` of class `cls`, fuel-driven (one unit of fuel per
parsed field; `bytes.length` units always suffice since every field
occupies at least one byte).  A field is recorded when the class
declares its field number with the wire type it was encoded with;
fields with unknown field numbers, and fields whose declared wire type
differs from the encountered one, are skipped — the protobuf library
merges both into the unknown-field set and parsing succeeds.  A decode
error arises only from structurally malformed bytes: a truncated
varint, a length-delimited payload longer than the remaining bytes, or
(in this model) a wire type other than 0 and 2. -/
def parseFields (cls : PClass) : Nat → List Nat → Option Instance
  | 0, bytes => if bytes.isEmpty then some [] else none
  | fuel + 1, bytes =>
    if bytes.isEmpty then some []
    else
      match varintDecode bytes with
      | none => none
      | some (key, rest) =>
        let fn := key / 8
        let wt := key % 8
        if wt = 0 then
          match varintDecode rest with
          | none => none
          | some (n, rest2) =>
            if cls.lookup fn = some 0 then
              match parseFields cls fuel rest2 with
              | some flds => some ((fn, FVal.vi n) :: flds)
              | none => none
            else parseFields cls fuel rest2
        else if wt = 2 then
          match varintDecode rest with
          | none => none
          | some (len, rest2) =>
            if len ≤ rest2.length then
              if cls.lookup fn = some 2 then
                match parseFields cls fuel (rest2.drop len) with
                | some flds => some ((fn, FVal.ld (rest2.take len)) :: flds)
                | none => none
              else parseFields cls fuel (rest2.drop len)
            else none
        else none

/-- `cls().ParseFromString(bytes)`. -/
def parseMsg (cls : PClass) (bytes : List Nat) : Option Instance :=
  parseFields cls bytes.length bytes

/-- `DefaultEmptyFillMessage`: one string field `flag` (field number 1,
length-delimited). -/
def fillCls : PClass := [(1, 2)]

/-- The sentinel instance written by `save_component_model`:
`fill_message.flag = 'set'` (bytes of `"set"`). -/
def fillSet : Instance := [(1, FVal.ld [115, 101, 116])]

/-- The serialized sentinel, `b"\x0a\x03set"`. -/
def sentinelBytes : List Nat := serializeMsg fillSet

/-- The bytes `save_component_model` writes for one buffer object
(lines 95-99 of `pipelined_model.py`): the buffer's serialization, or
the serialized `DefaultEmptyFillMessage` sentinel when that
serialization is empty. -/
def storedBytes (obj : Instance) : List Nat :=
  let s := serializeMsg obj
  if s = [] then serializeMsg fillSet else s

/-- The re-raised `DecodeError` of `parse_proto_object`. -/
inductive ParseErr
  | decodeError
deriving DecidableEq

/-- `PipelinedModel.parse_proto_object` (lines 260-279): try to parse
into the target class; on failure, if the bytes parse as a
`DefaultEmptyFillMessage`, return `cls().ParseFromString(bytes())`
(the default instance); otherwise re-raise. -/
def parseProtoObject (cls : PClass) (stored : List Nat) : Except ParseErr Instance :=
  match parseMsg cls stored with
  | some obj => Except.ok obj
  | none =>
    match parseMsg fillCls stored with
    | some _ =>
      match parseMsg cls [] with
      | some d => Except.ok d
      | none => Except.error ParseErr.decodeError
    | none => Except.error ParseErr.decodeError

/-- An instance is well-formed for a class when each populated field is
declared with the matching wire type (what the generated protobuf
classes guarantee for their own buffers). -/
abbrev WellFormed (cls : PClass) (obj : Instance) : Prop :=
  ∀ p ∈ obj, cls.lookup p.1 = some (wtypeOf p.2)

end Proto

namespace Pipelined

/-- The slice of local file-system state `unpack_model` can read or
write: whether the model cache directory `self.model_path` exists, and
the files below it. -/
structure ModelFS where
  cacheExists : Bool
  cacheFiles : List String
deriving DecidableEq

/-- Errors raised by `unpack_model`: the `FileExistsError` of line 200
and the `ValueError` of lines 207-209. -/
inductive UnpackErr
  | fileExists
  | hashMismatch
deriving DecidableEq

/-- `PipelinedModel.unpack_model` (lines 198-214) as a state
transformer: returns the file-system state after the call together with
the raised error, if any.  `hash` stands for `hashlib.sha1(...).hexdigest()`,
`archiveBytes` for the archive file content, `archiveEntries` for the
files the archive would extract to, and `sidecar` for
`f.read().strip()` of the `.sha1` sidecar file when that file exists
(the whitespace-stripping of line 204 is Python string-library
behaviour and is folded into the parameter).  The existence check
(line 199) and the digest check (lines 202-209) both precede
`os.makedirs` (line 211) and `shutil.unpack_archive` (line 213), so on
either raise the state is returned unchanged. -/
def unpackModel (hash : List Nat → String) (fs : ModelFS) (archiveBytes : List Nat)
    (archiveEntries : List String) (sidecar : Option String) :
    ModelFS × Option UnpackErr :=
  if fs.cacheExists then (fs, some UnpackErr.fileExists)
  else
    match sidecar with
    | some s =>
      if hash archiveBytes ≠ s then (fs, some UnpackErr.hashMismatch)
      else ({ cacheExists := true, cacheFiles := archiveEntries }, none)
    | none => ({ cacheExists := true, cacheFiles := archiveEntries }, none)

end Pipelined

/-! ## Helper lemmas -/

namespace CaesarLR

/-- Reconstruction is insensitive to which party's share comes first. -/
theorem reconVal_comm (q : Int) (dec : Int → Int) (a b : List Int) :
    reconVal q dec a b = reconVal q dec b a :=
  List.zipWith_comm_of_comm _ (fun x y => by rw [Int.add_comm]) a b

end CaesarLR

namespace CaesarLR

/-- If the first batch of iteration `it` raises, the whole batch loop
stops there with only that batch's steps and the aborted flag. -/
theorem runBatchesAux_abort_first (cfg : Cfg) (it : Nat)
    (h : (batchSteps cfg it 0).2 = false) :
    ∀ n, 0 < n → runBatchesAux cfg it n = ((batchSteps cfg it 0).1, false) := by
  intro n
  induction n with
  | zero => omega
  | succ m ih =>
    intro _
    rcases Nat.eq_zero_or_pos m with hm | hm
    · subst hm
      simp [runBatchesAux, h]
    · have hmeq := ih hm
      simp only [runBatchesAux]
      rw [hmeq]
      simp

/-- `review_models` never computes a plaintext error. -/
theorem plainError_not_in_reviewSteps (cfg : Cfg) (it bat i b : Nat) :
    Step.plainError i b ∉ (reviewSteps cfg it bat).1 := by
  unfold reviewSteps
  split_ifs <;> simp

/-- At a non-Guest role, no step of a batch body is a plaintext-error
computation. -/
theorem plainError_not_in_batchSteps (cfg : Cfg) (hr : cfg.role ≠ Role.guest)
    (it bat i b : Nat) : Step.plainError i b ∉ (batchSteps cfg it bat).1 := by
  have hrev := plainError_not_in_reviewSteps cfg it bat i b
  simp [batchSteps, hr, hrev]

/-- At a non-Guest role, no step of any prefix of the batch loop is a
plaintext-error computation. -/
theorem plainError_not_in_runBatchesAux (cfg : Cfg) (hr : cfg.role ≠ Role.guest)
    (it i b : Nat) : ∀ n, Step.plainError i b ∉ (runBatchesAux cfg it n).1 := by
  intro n
  induction n with
  | zero => simp [runBatchesAux]
  | succ m ih =>
    have hbs := plainError_not_in_batchSteps cfg hr it m i b
    cases hok : (runBatchesAux cfg it m).2 with
    | false => simp [runBatchesAux, hok, ih]
    | true => simp [runBatchesAux, hok, ih, hbs]

/-- At a non-Guest role, no step of the whole training loop is a
plaintext-error computation. -/
theorem plainError_not_in_runIters (cfg : Cfg) (hr : cfg.role ≠ Role.guest) (i b : Nat) :
    ∀ r it, Step.plainError i b ∉ (runIters cfg r it).1 := by
  intro r
  induction r with
  | zero =>
    intro it
    simp [runIters]
  | succ m ih =>
    intro it
    have hrb : Step.plainError i b ∉ (runBatches cfg it).1 := by
      unfold runBatches
      exact plainError_not_in_runBatchesAux cfg hr it i b cfg.nb
    cases hok : (runBatches cfg it).2 with
    | false => simp [runIters, hok, hrb]
    | true =>
      cases hc : cfg.conv it with
      | true => simp [runIters, hok, hc, hrb]
      | false => simp [runIters, hok, hc, hrb, ih (it + 1)]

/-- `review_models` executes no prediction step. -/
theorem predict_not_in_reviewSteps (cfg : Cfg) (it bat i b : Nat) :
    Step.predict i b ∉ (reviewSteps cfg it bat).1 := by
  unfold reviewSteps
  split_ifs <;> simp

/-- The prediction steps of one batch body are exactly the one for that
iteration and batch. -/
theorem predict_mem_batchSteps (cfg : Cfg) (it bat i b : Nat) :
    Step.predict i b ∈ (batchSteps cfg it bat).1 ↔ (i = it ∧ b = bat) := by
  have hrev := predict_not_in_reviewSteps cfg it bat i b
  by_cases hg : cfg.role = Role.guest <;> simp [batchSteps, hg, hrev]

/-- Under `NoAbort` a review never raises. -/
theorem reviewSteps_ok (cfg : Cfg) (h : NoAbort cfg) (it bat : Nat) :
    (reviewSteps cfg it bat).2 = true := by
  unfold reviewSteps
  rcases h with h | ⟨h, hg⟩
  · rw [if_pos h]
    split <;> rfl
  · rw [if_neg (by rw [h]; decide), if_pos h]
    rcases hg with hg | hg
    · rw [if_pos hg]
    · by_cases hrole : cfg.role = Role.guest
      · rw [if_pos hrole]
      · rw [if_neg hrole, if_neg (by omega)]

/-- Under `NoAbort` a batch never raises. -/
theorem batchSteps_ok (cfg : Cfg) (h : NoAbort cfg) (it bat : Nat) :
    (batchSteps cfg it bat).2 = true :=
  reviewSteps_ok cfg h it bat

/-- Under `NoAbort` the batch loop never aborts. -/
theorem runBatchesAux_ok (cfg : Cfg) (h : NoAbort cfg) (it : Nat) :
    ∀ n, (runBatchesAux cfg it n).2 = true := by
  intro n
  induction n with
  | zero => rfl
  | succ m ih => simp [runBatchesAux, ih, batchSteps_ok cfg h it m]

/-- The prediction steps of the first `n` batches of iteration `it` are
exactly those with batch index below `n`. -/
theorem predict_mem_runBatchesAux (cfg : Cfg) (h : NoAbort cfg) (it i b : Nat) :
    ∀ n, Step.predict i b ∈ (runBatchesAux cfg it n).1 ↔ (i = it ∧ b < n) := by
  intro n
  induction n with
  | zero => simp [runBatchesAux]
  | succ m ih =>
    have hok := runBatchesAux_ok cfg h it m
    have hbs := predict_mem_batchSteps cfg it m i b
    simp only [runBatchesAux, hok, if_true, List.mem_append, ih, hbs, Nat.lt_succ_iff_lt_or_eq]
    tauto

/-- The prediction steps of `runIters cfg r it` are exactly those of
iterations in `[it, it + r)` not preceded (within that window) by a
converged iteration, over all batch indices below `cfg.nb`. -/
theorem predict_mem_runIters (cfg : Cfg) (h : NoAbort cfg) (i b : Nat) :
    ∀ r it, Step.predict i b ∈ (runIters cfg r it).1 ↔
      (it ≤ i ∧ i < it + r ∧ b < cfg.nb ∧ ∀ j, it ≤ j → j < i → cfg.conv j = false) := by
  intro r
  induction r with
  | zero =>
    intro it
    simp only [runIters, List.not_mem_nil, false_iff]
    rintro ⟨h1, h2, -, -⟩
    omega
  | succ m ih =>
    intro it
    have hok : (runBatches cfg it).2 = true := runBatchesAux_ok cfg h it cfg.nb
    have hmem : Step.predict i b ∈ (runBatches cfg it).1 ↔ (i = it ∧ b < cfg.nb) :=
      predict_mem_runBatchesAux cfg h it i b cfg.nb
    cases hc : cfg.conv it with
    | true =>
      simp only [runIters, hok, if_true, hc, List.mem_append, hmem, List.mem_singleton]
      constructor
      · rintro (⟨rfl, hb⟩ | hcs)
        · exact ⟨Nat.le_refl i, by omega, hb, fun j hj1 hj2 => by omega⟩
        · exact absurd hcs (by simp)
      · rintro ⟨hle, hlt, hb, hconv⟩
        left
        have hi : i = it := by
          by_contra hne
          have hgt : it < i := Nat.lt_of_le_of_ne hle (Ne.symm hne)
          have := hconv it (Nat.le_refl it) hgt
          rw [hc] at this
          cases this
        exact ⟨hi, hb⟩
    | false =>
      simp only [runIters, hok, if_true, hc, Bool.false_eq_true, if_false, List.mem_append,
        hmem, ih (it + 1)]
      constructor
      · rintro (⟨rfl, hb⟩ | ⟨h1, h2, hb, hconv⟩)
        · exact ⟨Nat.le_refl i, by omega, hb, fun j hj1 hj2 => by omega⟩
        · refine ⟨by omega, by omega, hb, ?_⟩
          intro j hj1 hj2
          rcases Nat.eq_or_lt_of_le hj1 with hj | hj
          · rw [← hj]
            exact hc
          · exact hconv j hj hj2
      · rintro ⟨hle, hlt, hb, hconv⟩
        rcases Nat.eq_or_lt_of_le hle with hi | hgt
        · exact Or.inl ⟨hi.symm, hb⟩
        · right
          exact ⟨hgt, by omega, hb, fun j hj1 hj2 => hconv j (by omega) hj2⟩

end CaesarLR

namespace Proto

/-- The varint encoder never produces the empty byte string. -/
theorem varintEncode_ne_nil (n : Nat) : varintEncode n ≠ [] := by
  unfold varintEncode varintEncodeGo
  split_ifs <;> simp

/-- Decoding inverts the fuel-driven encoder whenever the fuel
dominates the encoded number. -/
theorem varintDecode_encodeGo :
    ∀ f n t, n < f → varintDecode (varintEncodeGo f n ++ t) = some (n, t) := by
  intro f
  induction f with
  | zero =>
    intro n t hn
    omega
  | succ f ih =>
    intro n t hn
    by_cases h128 : n < 128
    · simp [varintEncodeGo, h128, varintDecode]
    · have hdiv : n / 128 < f := by omega
      have hb : ¬ (n % 128 + 128 < 128) := by omega
      simp [varintEncodeGo, h128, varintDecode, hb, ih (n / 128) t hdiv]
      omega

/-- Decoding inverts the encoder. -/
theorem varintDecode_encode (n : Nat) (t : List Nat) :
    varintDecode (varintEncode n ++ t) = some (n, t) :=
  varintDecode_encodeGo (n + 1) n t (Nat.lt_succ_self n)

/-- Every encoded field occupies at least one byte. -/
theorem encodeField_ne_nil (p : Nat × FVal) : encodeField p ≠ [] := by
  obtain ⟨fn, v⟩ := p
  cases v <;> simp [encodeField, varintEncode_ne_nil]

/-- A field list never out-counts its serialization. -/
theorem length_le_serializeFields : ∀ l : Instance, l.length ≤ (serializeFields l).length := by
  intro l
  induction l with
  | nil => simp [serializeFields]
  | cons f fs ih =>
    have h1 : encodeField f ≠ [] := encodeField_ne_nil f
    have h2 : 1 ≤ (encodeField f).length := by
      cases hef : encodeField f
      · exact absurd hef h1
      · simp
    simp only [serializeFields, List.length_cons, List.length_append]
    omega

/-- Parsing one well-typed encoded field followed by already-parsable
bytes consumes exactly that field. -/
theorem parseFields_step (cls : PClass) (f fn : Nat) (v : FVal) (rest : List Nat) (r : Instance)
    (hwf : cls.lookup fn = some (wtypeOf v))
    (hrest : parseFields cls f rest = some r) :
    parseFields cls (f + 1) (encodeField (fn, v) ++ rest) = some ((fn, v) :: r) := by
  cases v with
  | vi n =>
    have hkey : fn * 8 / 8 = fn := by omega
    have hwt : fn * 8 % 8 = 0 := by omega
    have hne : varintEncode (fn * 8) ≠ [] := varintEncode_ne_nil _
    simp [parseFields, encodeField, List.append_assoc, List.isEmpty_iff, hne,
      varintDecode_encode, hkey, hwt, hwf, wtypeOf, hrest]
  | ld bs =>
    have hkey : (fn * 8 + 2) / 8 = fn := by omega
    have hwt : (fn * 8 + 2) % 8 = 2 := by omega
    have hne : varintEncode (fn * 8 + 2) ≠ [] := varintEncode_ne_nil _
    simp [parseFields, encodeField, List.append_assoc, List.isEmpty_iff, hne,
      varintDecode_encode, hkey, hwt, hwf, wtypeOf, hrest, List.take_left, List.drop_left]

/-- A well-formed field list parses back successfully from its own
serialization, given fuel at least its field count. -/
theorem parseFields_serializeFields (cls : PClass) :
    ∀ l : Instance, (∀ p ∈ l, cls.lookup p.1 = some (wtypeOf p.2)) →
      ∀ fuel, l.length ≤ fuel →
        ∃ r, parseFields cls fuel (serializeFields l) = some r := by
  intro l
  induction l with
  | nil =>
    intro _ fuel _
    refine ⟨[], ?_⟩
    cases fuel <;> simp [serializeFields, parseFields]
  | cons hd tl ih =>
    intro hwf fuel hlen
    obtain ⟨fn, v⟩ := hd
    cases fuel with
    | zero => simp at hlen
    | succ f =>
      have hwfh : cls.lookup fn = some (wtypeOf v) := hwf (fn, v) (List.mem_cons_self _ _)
      have hwft : ∀ p ∈ tl, cls.lookup p.1 = some (wtypeOf p.2) :=
        fun p hp => hwf p (List.mem_cons_of_mem _ hp)
      have hlen' : tl.length ≤ f := by
        simp only [List.length_cons] at hlen
        omega
      obtain ⟨r, hr⟩ := ih hwft f hlen'
      exact ⟨(fn, v) :: r, parseFields_step cls f fn v (serializeFields tl) r hwfh hr⟩

/-- Parsing the empty byte string yields the default instance for every
class (`cls().ParseFromString(bytes())`). -/
theorem parseMsg_nil (cls : PClass) : parseMsg cls [] = some [] := rfl

/-- The sentinel bytes `b"\x0a\x03set"` are well-formed wire data, so
`ParseFromString` succeeds on them for EVERY class: the result records
the payload in field 1 when the class declares field 1 as
length-delimited, and otherwise (field 1 unknown, or declared with a
different wire type and hence skipped as an unknown field) is the
default instance. -/
theorem parseMsg_sentinel (cls : PClass) :
    parseMsg cls sentinelBytes =
      some (if cls.lookup 1 = some 2 then [(1, FVal.ld [115, 101, 116])] else []) := by
  have hs : parseMsg cls sentinelBytes
      = parseFields cls (0 + 1 + 1 + 1 + 1 + 1) [10, 3, 115, 101, 116] := rfl
  rw [hs]
  by_cases h : cls.lookup 1 = some 2 <;>
    simp [parseFields, varintDecode, h]

/-- `SerializeToString` then `ParseFromString` of the same class always
succeeds for a well-formed buffer. -/
theorem parseMsg_serializeMsg (cls : PClass) (obj : Instance) (hwf : WellFormed cls obj) :
    ∃ r, parseMsg cls (serializeMsg obj) = some r := by
  have hwf' : ∀ p ∈ obj.filter (fun p => !isDefaultF p.2), cls.lookup p.1 = some (wtypeOf p.2) :=
    fun p hp => hwf p (List.mem_of_mem_filter hp)
  have hlen := length_le_serializeFields (obj.filter (fun p => !isDefaultF p.2))
  exact parseFields_serializeFields cls _ hwf' _ hlen

end Proto

/-! ## Claim theorems -/

open CaesarLR Proto Pipelined

/-- C1 (code_bug): in the run `cfgTwoBatches` — one iteration
(`max_iter = 1`), two batches, never converging — the reconstruction
tensor name `wb_0` is issued twice (once by each batch's
`review_models` call, since the names of lines 180-198 interpolate only
`self.n_iter_`), so the full tag list of the run is not duplicate-free:
the claim that every tag is unique across all iterations and batch
indices, and in particular that the review steps of two batches of one
iteration use distinct tags, fails on the code. -/
theorem c1_review_tag_reused_in_multibatch_iteration :
    (runTags cfgTwoBatches).count (Tag.tname "wb" 0) = 2
    ∧ ¬ (runTags cfgTwoBatches).Nodup := by
  constructor
  · decide
  · decide

/-- C2 counterexample: a Host holding 3 local features (its `wa` share
has length 3) paired with a 1-feature Guest.  The claim says the review
fails with `PolicyViolation` before any disclosure; instead the Host
branch raises nothing — the guard of line 193 measures `w_remote`, the
Guest-side shard `wb` — broadcasts both shares, and the composed review
completes with both shards disclosed to the Guest. -/
theorem c2_guard_ignores_host_feature_count :
    ([4, 5, 6] : List Int).length > 2
    ∧ hostAllReviewInGuest 0 [4, 5, 6] [8] =
        Except.ok ([(Tag.tname "wb" 0, [8]), (Tag.tname "wa" 0, [4, 5, 6])], [0, 0, 0])
    ∧ composeAllReviewInGuest 97 (fun x => x) 0 ⟨[7], [8]⟩ ⟨[1, 2, 3], [4, 5, 6]⟩ =
        Except.ok ⟨[15], ⟨[5, 7, 9], false⟩, [0, 0, 0]⟩ :=
  ⟨by decide, rfl, rfl⟩

/-- C2 amended: the `all_review_in_guest` guard tests the dimension of
the Host's `w_remote` — the Guest-side shard `wb` — not the Host's own
feature count.  Whenever that dimension exceeds 2, the Host's review
step raises `ValueError` before broadcasting any share, and the
composed review yields no outcome at all: nothing is broadcast and no
weight is reconstructed by either party. -/
theorem c2_guard_on_guest_shard_dim_blocks_disclosure (it : Nat) (waH wbH : List Int)
    (h : wbH.length > 2) :
    hostAllReviewInGuest it waH wbH = Except.error RErr.policyViolation
    ∧ ∀ (q : Int) (dec : Int → Int) (wb wa : Shared), wb.hShare = wbH → wa.hShare = waH →
        composeAllReviewInGuest q dec it wb wa = Except.error RErr.policyViolation := by
  have h1 : hostAllReviewInGuest it waH wbH = Except.error RErr.policyViolation := by
    simp [hostAllReviewInGuest, h]
  refine ⟨h1, ?_⟩
  intro q dec wb wa hwb hwa
  simp only [composeAllReviewInGuest, hwb, hwa, h1]

/-- Witness for C2's amended theorem at a concrete 3-dimensional Guest
shard. -/
theorem c2_guard_witness :
    hostAllReviewInGuest 0 [1] [9, 9, 9] = Except.error RErr.policyViolation
    ∧ composeAllReviewInGuest 5 (fun x => x) 0 ⟨[2], [9, 9, 9]⟩ ⟨[3], [1]⟩ =
        Except.error RErr.policyViolation :=
  ⟨(c2_guard_on_guest_shard_dim_blocks_disclosure 0 [1] [9, 9, 9] (by decide)).1,
   (c2_guard_on_guest_shard_dim_blocks_disclosure 0 [1] [9, 9, 9] (by decide)).2
     5 (fun x => x) ⟨[2], [9, 9, 9]⟩ ⟨[3], [1]⟩ rfl rfl⟩

/-- C3: under `"respectively"` the review is symmetric — the Guest
reconstructs tensor name `wb_{it}` and broadcasts `wa_{it}`, the Host
broadcasts `wb_{it}` and reconstructs `wa_{it}` — the composed review
gives each party exactly the plaintext of its own shard, and each
party's entire view (its local shares plus everything it receives) is
unchanged when the other party's private share of the non-disclosed
shard is replaced arbitrarily, so neither party learns the other's
coefficients. -/
theorem c3_respectively_review_symmetric_and_private (q : Int) (dec : Int → Int) (it : Nat)
    (wb wa : Shared) :
    composeRespectively q dec it wb wa =
      some (reconVal q dec wb.gShare wb.hShare, reconVal q dec wa.gShare wa.hShare)
    ∧ guestRespectivelySends it wa.gShare = [(Tag.tname "wa" it, wa.gShare)]
    ∧ hostRespectivelySends it wb.hShare = [(Tag.tname "wb" it, wb.hShare)]
    ∧ (∀ x, guestRespectivelyView it wb wa = guestRespectivelyView it wb ⟨wa.gShare, x⟩)
    ∧ (∀ x, hostRespectivelyView it wb wa = hostRespectivelyView it ⟨x, wb.hShare⟩ wa) := by
  refine ⟨?_, rfl, rfl, fun x => rfl, fun x => rfl⟩
  have hcomm := reconVal_comm q dec wa.hShare wa.gShare
  simp [composeRespectively, guestRespectivelyNewW, hostRespectivelyNewW,
    guestRespectivelySends, hostRespectivelySends, recvFrom, hcomm]

/-- C7: with the guard satisfied (the Host's `w_remote`, the Guest-side
shard `wb`, has dimension at most 2), the composed
`"all_review_in_guest"` review gives the Guest its own reconstructed
shard as `new_w` together with the Host's reconstructed shard wrapped as
`LinearModelWeights(l=…, fit_intercept=False)`, while the Host's own
`new_w` is `np.zeros(w_self.shape)` — a constant vector depending only
on the dimension of its shard, carrying no information about the
trained coefficients. -/
theorem c7_all_review_in_guest_outcome (q : Int) (dec : Int → Int) (it : Nat)
    (wb wa : Shared) (hg : wb.hShare.length ≤ 2) :
    composeAllReviewInGuest q dec it wb wa =
      Except.ok ⟨reconVal q dec wb.gShare wb.hShare,
                 ⟨reconVal q dec wa.gShare wa.hShare, false⟩,
                 List.replicate wa.hShare.length 0⟩ := by
  have hg' : ¬ (wb.hShare.length > 2) := by omega
  simp [composeAllReviewInGuest, hostAllReviewInGuest, hg', guestAllReviewInGuest, recvFrom]

/-- Witness for C7 at concrete shares. -/
theorem c7_witness :
    composeAllReviewInGuest 97 (fun x => x) 0 ⟨[7], [8]⟩ ⟨[1, 2], [3, 4]⟩ =
      Except.ok ⟨reconVal 97 (fun x => x) [7] [8],
                 ⟨reconVal 97 (fun x => x) [1, 2] [3, 4], false⟩,
                 List.replicate 2 0⟩ :=
  c7_all_review_in_guest_outcome 97 (fun x => x) 0 ⟨[7], [8]⟩ ⟨[1, 2], [3, 4]⟩ (by decide)

/-- C8: in `share_z` the Host encrypts and sends exactly one variable,
`"z"`, under the suffix `("z",) + (it, bat)`, and the Guest receives
exactly one encrypted matrix and returns it three times over — every
component of the returned tuple is that same received tensor, not an
independently computed value. -/
theorem c8_share_z_single_term_duplicated (enc : List Int → List Int) (it bat : Nat)
    (kwargs : String → List Int) (recv : ZTag → List Int) :
    shareZHost enc it bat kwargs = [(⟨"z", it, bat⟩, enc (kwargs "z"))]
    ∧ shareZGuest recv it bat =
        (recv ⟨"z", it, bat⟩, recv ⟨"z", it, bat⟩, recv ⟨"z", it, bat⟩) := by
  constructor
  · simp [shareZHost, shareZVars]
  · simp [shareZGuest, shareZVars]

/-- C6 counterexample: with the unknown review strategy `"foo"`
(`cfgUnknownStrategy`), initialization raises nothing and the run
executes the prediction, plaintext-error and gradient steps of
iteration 0, batch 0 before the `NotImplementedError` of line 201 is
raised inside `review_models` — the failure happens mid-run, after
training has started, not at initialization. -/
theorem c6_unknown_strategy_fails_mid_run_not_at_init :
    fitBinaryTrace cfgUnknownStrategy =
      [Step.predict 0 0, Step.plainError 0 0, Step.gradient 0 0,
       Step.unsupported 0 0 "foo"] := rfl

/-- C5: the training loop is a total function (its Lean embedding is
structurally recursive, so every run terminates), and for every
non-aborting run an iteration executes — i.e. its prediction steps
appear in the trace — exactly when it is below `max_iter` and no
earlier iteration's convergence check succeeded: the loop stops at the
first converged iteration, otherwise when the counter reaches
`max_iter`, and no prediction, gradient or review step of any later
iteration is ever executed. -/
theorem c5_training_loop_terminates_at_convergence_or_max_iter (cfg : Cfg) (h : NoAbort cfg)
    (i b : Nat) :
    Step.predict i b ∈ fitBinaryTrace cfg ↔
      (i < cfg.maxIter ∧ b < cfg.nb ∧ ∀ j, j < i → cfg.conv j = false) := by
  unfold fitBinaryTrace
  rw [predict_mem_runIters cfg h i b cfg.maxIter 0]
  constructor
  · rintro ⟨-, h2, hb, hconv⟩
    exact ⟨by omega, hb, fun j hj => hconv j (Nat.zero_le j) hj⟩
  · rintro ⟨h1, hb, hconv⟩
    exact ⟨Nat.zero_le i, by omega, hb, fun j hj1 hj2 => hconv j hj2⟩

/-- Witness for C5: in `cfgRespectively` (`max_iter = 3`, 2 batches,
convergence first reported at iteration 1) iteration 1's first batch
does execute. -/
theorem c5_witness : Step.predict 1 0 ∈ fitBinaryTrace cfgRespectively :=
  (c5_training_loop_terminates_at_convergence_or_max_iter cfgRespectively (Or.inl rfl) 1 0).mpr
    ⟨by decide, by decide, by decide⟩

/-- C6 amended: for any review-strategy string other than
`"respectively"` and `"all_review_in_guest"`, initialization raises
nothing and the run instead fails with `NotImplementedError` inside the
`review_models` call of the first batch of the first iteration — after
that batch's prediction (and, at the Guest, plaintext-error) and
gradient steps have already executed — and no further batch or
iteration runs. -/
theorem c6_unknown_strategy_fails_in_first_review_step (cfg : Cfg)
    (h1 : cfg.reviewStrategy ≠ "respectively") (h2 : cfg.reviewStrategy ≠ "all_review_in_guest")
    (h3 : 0 < cfg.nb) (h4 : 0 < cfg.maxIter) :
    fitBinaryTrace cfg =
      Step.predict 0 0 ::
        (if cfg.role = Role.guest then [Step.plainError 0 0] else []) ++
        [Step.gradient 0 0, Step.unsupported 0 0 cfg.reviewStrategy] := by
  have hrev : reviewSteps cfg 0 0 = ([Step.unsupported 0 0 cfg.reviewStrategy], false) := by
    simp [reviewSteps, h1, h2]
  have hb : batchSteps cfg 0 0 =
      (Step.predict 0 0 ::
        (if cfg.role = Role.guest then [Step.plainError 0 0] else []) ++
        [Step.gradient 0 0, Step.unsupported 0 0 cfg.reviewStrategy], false) := by
    simp [batchSteps, hrev]
  have hrb : runBatches cfg 0 = ((batchSteps cfg 0 0).1, false) := by
    unfold runBatches
    exact runBatchesAux_abort_first cfg 0 (by rw [hb]) cfg.nb h3
  obtain ⟨r, hr⟩ : ∃ r, cfg.maxIter = r + 1 := ⟨cfg.maxIter - 1, by omega⟩
  unfold fitBinaryTrace
  rw [hr]
  simp [runIters, hrb, hb]

/-- Witness for C6's amended theorem at a concrete Host-side run with
strategy `"bar"`, two batches and `max_iter = 1`. -/
theorem c6_witness :
    fitBinaryTrace { role := Role.host, reviewStrategy := "bar", wbDim := 1,
                     nb := 2, maxIter := 1, conv := fun _ => false } =
      [Step.predict 0 0, Step.gradient 0 0, Step.unsupported 0 0 "bar"] := by
  have h := c6_unknown_strategy_fails_in_first_review_step
    { role := Role.host, reviewStrategy := "bar", wbDim := 1, nb := 2, maxIter := 1,
      conv := fun _ => false } (by decide) (by decide) (by decide) (by decide)
  simpa using h

/-- C4: only the Guest branch of the loop body computes a plaintext
error: at the Guest, the value passed to `compute_gradient` is the
re-shared `from_value` wrapping of `y.value − labels` (prediction minus
the locally held label), while at every other role the value passed is
the unchanged (still secret-shared) prediction `y`, and no step of the
whole training trace of a non-Guest party is a plaintext-error
computation. -/
theorem c4_plaintext_error_only_in_guest_branch (labels yVal : List Int) (cfg : Cfg)
    (hr : cfg.role ≠ Role.guest) :
    batchGradCall Role.guest labels yVal =
      GradArg.reshared (List.zipWith (fun yi li => yi - li) yVal labels)
    ∧ batchGradCall cfg.role labels yVal = GradArg.shared yVal
    ∧ ∀ i b, Step.plainError i b ∉ fitBinaryTrace cfg := by
  refine ⟨by simp [batchGradCall], by simp [batchGradCall, hr], ?_⟩
  intro i b
  unfold fitBinaryTrace
  exact plainError_not_in_runIters cfg hr i b cfg.maxIter 0

/-- Witness for C4 at concrete labels, prediction values and the
Host-side run `cfgRespectively`. -/
theorem c4_witness :
    batchGradCall Role.guest [1, 2] [5, 7] = GradArg.reshared [4, 5]
    ∧ batchGradCall Role.host [1, 2] [5, 7] = GradArg.shared [5, 7]
    ∧ Step.plainError 0 0 ∉ fitBinaryTrace cfgRespectively := by
  have h := c4_plaintext_error_only_in_guest_branch [1, 2] [5, 7] cfgRespectively (by decide)
  refine ⟨?_, h.2.1, h.2.2 0 0⟩
  rw [h.1]
  decide

/-- C9 counterexample: take a protobuf class whose field 1 is
length-delimited (as in `LRModelMeta`, whose field 1 `penalty` is a
string) and its default instance, whose serialization is the empty
byte string.  `save_component_model` stores the
`DefaultEmptyFillMessage` sentinel, but reading it back through
`parse_proto_object` succeeds on the FIRST parse attempt — the sentinel
bytes are wire-compatible — and returns an instance carrying the
sentinel payload `"set"` in field 1, not a default-initialized
instance. -/
theorem c9_sentinel_readback_not_default :
    serializeMsg ([] : Instance) = []
    ∧ parseProtoObject [(1, 2)] (storedBytes ([] : Instance)) =
        Except.ok [(1, FVal.ld [115, 101, 116])]
    ∧ ([(1, FVal.ld [115, 101, 116])] : Instance) ≠ ([] : Instance) :=
  ⟨rfl, rfl, by decide⟩

/-- C9 amended: for every buffer whose serialization is empty,
`save_component_model` writes the `DefaultEmptyFillMessage` sentinel in
its place, and `parse_proto_object` on the stored bytes never fails and
always returns an instance of the original buffer class.  The sentinel
bytes are well-formed wire data, so the class's own first
`ParseFromString` attempt succeeds and the default-producing fallback
of lines 270-279 is never reached: the result is the
default-initialized instance exactly when the class does not declare
field 1 as a length-delimited field (an unknown or
wire-type-mismatched field 1 is skipped as an unknown field), while a
class declaring field 1 length-delimited instead reads back the
sentinel payload `"set"` in that field.  For buffers with non-empty
serialization, reading back likewise succeeds with an instance of the
same class. -/
theorem c9_save_then_read_same_class (cls : PClass) (obj : Instance)
    (hwf : WellFormed cls obj) :
    (serializeMsg obj = [] → storedBytes obj = sentinelBytes)
    ∧ parseProtoObject cls (storedBytes obj) ≠ Except.error ParseErr.decodeError
    ∧ (serializeMsg obj = [] →
        parseProtoObject cls (storedBytes obj) =
          Except.ok (if cls.lookup 1 = some 2 then [(1, FVal.ld [115, 101, 116])] else [])) := by
  by_cases hemp : serializeMsg obj = []
  · have hst : storedBytes obj = sentinelBytes := by
      simp [storedBytes, hemp, sentinelBytes]
    have hp := parseMsg_sentinel cls
    refine ⟨fun _ => hst, ?_, fun _ => ?_⟩
    · rw [hst]
      simp [parseProtoObject, hp]
    · rw [hst]
      simp [parseProtoObject, hp]
  · have hst : storedBytes obj = serializeMsg obj := by
      simp [storedBytes, hemp]
    obtain ⟨r, hr⟩ := parseMsg_serializeMsg cls obj hwf
    refine ⟨fun h => absurd h hemp, ?_, fun h => absurd h hemp⟩
    rw [hst]
    simp [parseProtoObject, hr]

/-- Witness for C9's amended theorem: a class whose only field is a
varint scalar, saved with all fields default.  Field 1 of the sentinel
carries wire type 2, so it is skipped as an unknown field and the
read-back instance is default-initialized — via a successful first
parse, not via the fallback. -/
theorem c9_witness :
    storedBytes [(1, FVal.vi 0)] = sentinelBytes
    ∧ parseProtoObject [(1, 0)] (storedBytes [(1, FVal.vi 0)]) ≠
        Except.error ParseErr.decodeError
    ∧ parseProtoObject [(1, 0)] (storedBytes [(1, FVal.vi 0)]) = Except.ok [] := by
  have h := c9_save_then_read_same_class [(1, 0)] [(1, FVal.vi 0)] (by decide)
  refine ⟨h.1 rfl, h.2.1, ?_⟩
  have h3 := h.2.2 rfl
  simpa using h3

/-- C10: `unpack_model` is atomic on error: when the local model cache
already exists it raises `FileExistsError`, and when a `.sha1` sidecar
exists whose stripped digest differs from the digest of the archive it
raises `ValueError`; in both cases the returned file-system state is
exactly the input state — the cache directory is not created and
nothing is extracted. -/
theorem c10_unpack_model_atomic_on_error (hash : List Nat → String) (fs : ModelFS)
    (ab : List Nat) (entries : List String) (sidecar : Option String) :
    (fs.cacheExists = true →
      unpackModel hash fs ab entries sidecar = (fs, some UnpackErr.fileExists))
    ∧ (fs.cacheExists = false → ∀ s, sidecar = some s → hash ab ≠ s →
      unpackModel hash fs ab entries sidecar = (fs, some UnpackErr.hashMismatch)) := by
  constructor
  · intro h
    simp [unpackModel, h]
  · intro h s hs hne
    subst hs
    simp [unpackModel, h, hne]

/-- Witness for C10: both error cases at concrete states. -/
theorem c10_witness :
    unpackModel (fun _ => "aa") ⟨true, []⟩ [1] ["f"] none =
      (⟨true, []⟩, some UnpackErr.fileExists)
    ∧ unpackModel (fun _ => "aa") ⟨false, []⟩ [1] ["f"] (some "bb") =
      (⟨false, []⟩, some UnpackErr.hashMismatch) :=
  ⟨(c10_unpack_model_atomic_on_error (fun _ => "aa") ⟨true, []⟩ [1] ["f"] none).1 rfl,
   (c10_unpack_model_atomic_on_error (fun _ => "aa") ⟨false, []⟩ [1] ["f"] (some "bb")).2
     rfl "bb" rfl (by decide)⟩

end FATE
